import Mathlib

/-!
Verification of the Nebula mesh bootstrap-and-relay core (Happy).

Shallow embedding of the pairing protocol (`NebulaAuth`), the mesh manager
(`NebulaManager`), the local relay (`LocalRelay`), and the socket/RPC layer
(`NebulaSocket`).  Pure computations are translated to Lean functions;
stateful code is translated to explicit state-passing functions; fallible
external collaborators (JSON parsing, the Nebula manager calls, token
storage) become `Except`/`Option` parameters at the call site where the
TypeScript awaits them.  JavaScript 32-bit integer arithmetic is modelled
on `Int` with explicit reduction into `[-2^31, 2^31)`.
-/

namespace Happy

/-! ## JavaScript 32-bit arithmetic

`x & 0xffffffff` and `<< 5` in JS coerce through `ToInt32`: the value is
reduced mod `2^32` into the signed range `[-2^31, 2^31)`. -/

/-- JS `ToInt32`: reduce an integer into `[-2^31, 2^31)`. -/
def toInt32 (x : Int) : Int :=
  (x + 2147483648) % 4294967296 - 2147483648

/-! ## `NebulaAuth.deriveSharedSecret` (NebulaAuth.ts lines 279–294)

```ts
const combined = new Uint8Array(challenge.length + signature.length + publicKey.length);
combined.set(challenge, 0);
combined.set(signature, challenge.length);
combined.set(publicKey, challenge.length + signature.length);
let hash = 0;
for (let i = 0; i < combined.length; i++) {
    hash = ((hash << 5) - hash + combined[i]) & 0xffffffff;
}
return Math.abs(hash).toString(16).padStart(8, '0').repeat(8).slice(0, 64);
```
-/

/-- One iteration of the rolling hash: `((hash << 5) - hash + b) & 0xffffffff`.
`hash << 5` wraps to int32 first; the outer `& 0xffffffff` is `ToInt32`. -/
def hashStep (hash : Int) (b : Nat) : Int :=
  toInt32 (toInt32 (hash * 32) - hash + b)

/-- Lowercase hex digit, as produced by JS `Number.prototype.toString(16)`. -/
def hexDigitChar (n : Nat) : Char :=
  if n < 10 then Char.ofNat (48 + n) else Char.ofNat (87 + n)

/-- Fuel-based hex rendering of a natural number, most significant digit
first (JS `toString(16)` on a nonnegative integer). -/
def natToHexCore : Nat → Nat → List Char → List Char
  | 0, _, acc => acc
  | fuel + 1, n, acc =>
    let d := hexDigitChar (n % 16)
    let n' := n / 16
    if n' = 0 then d :: acc else natToHexCore fuel n' (d :: acc)

/-- JS `n.toString(16)` for a natural number. -/
def natToHex (n : Nat) : List Char :=
  natToHexCore (n + 1) n []

/-- JS `String.prototype.padStart(w, '0')` on a character list. -/
def padStartZero (w : Nat) (l : List Char) : List Char :=
  List.replicate (w - l.length) '0' ++ l

/-- Embedding of `NebulaAuth.deriveSharedSecret` (lines 279–294):
concatenate the three byte arrays, run the rolling hash, then
`Math.abs(hash).toString(16).padStart(8, '0').repeat(8).slice(0, 64)`. -/
def deriveSharedSecret (challenge signature publicKey : List Nat) : String :=
  let combined := challenge ++ signature ++ publicKey
  let hash := combined.foldl hashStep 0
  String.mk (List.take 64 (List.flatten (List.replicate 8 (padStartZero 8 (natToHex hash.natAbs)))))

/-! ## The pairing data model (`NebulaAuth.ts`)

`NebulaAuthQRData` is the QR payload (lines 12–22); hex-string fields are
kept as strings and decoded with `hexDecode` exactly where the source calls
`Buffer.from(s, 'hex')`. -/

structure NebulaAuthQRData where
  version : String
  networkId : String
  caCert : String
  lighthouseIP : String
  lighthousePort : Int
  authChallenge : String
  authSignature : String
  authPublicKey : String
  timestamp : Int
deriving DecidableEq

structure AuthCredentials where
  token : String
  secret : String
deriving DecidableEq

/-- The `nebulaConfig` object returned on line 125–128 of `joinNetwork`. -/
structure PairingNebulaConfig where
  nodeIP : Option String
  lighthouseIP : String
deriving DecidableEq

/-- Record `PairingResult` (NebulaAuth.ts lines 24–29). -/
structure PairingResult where
  success : Bool
  credentials : Option AuthCredentials := none
  nebulaConfig : Option PairingNebulaConfig := none
  error : Option String := none
deriving DecidableEq

/-- Value of one hex digit, accepting both cases (as `Buffer.from(·,'hex')`). -/
def hexCharVal (c : Char) : Option Nat :=
  if 48 ≤ c.toNat ∧ c.toNat ≤ 57 then some (c.toNat - 48)
  else if 97 ≤ c.toNat ∧ c.toNat ≤ 102 then some (c.toNat - 87)
  else if 65 ≤ c.toNat ∧ c.toNat ≤ 70 then some (c.toNat - 55)
  else none

/-- Node's `Buffer.from(s, 'hex')`: decode hex pairs, stopping at the first
character pair that is not two hex digits (a trailing lone digit is dropped). -/
def hexDecodeChars : List Char → List Nat
  | c1 :: c2 :: rest =>
    match hexCharVal c1, hexCharVal c2 with
    | some a, some b => (16 * a + b) :: hexDecodeChars rest
    | _, _ => []
  | _ => []

def hexDecode (s : String) : List Nat := hexDecodeChars s.data

/-! ## `NebulaAuth.deriveCredentialsFromQR` (lines 255–277)

Decodes the three hex fields and derives the shared secret.  The body's
own `try` never throws (`Buffer.from` and the rolling hash are total), so
the `null` branch of the source is unreachable here; the `Option` shape is
kept because `joinNetwork` tests it.  `now` stands for the `Date.now()`
used in the generated token name. -/

def deriveCredentialsFromQR (now : Int) (qrData : NebulaAuthQRData) : Option AuthCredentials :=
  some
    { token := "nebula-client-" ++ toString now
      secret := deriveSharedSecret (hexDecode qrData.authChallenge)
        (hexDecode qrData.authSignature) (hexDecode qrData.authPublicKey) }

/-! ## `NebulaAuth.joinNetwork` (lines 89–135)

External collaborators become parameters at the point the source awaits
them: `parseResult` is the outcome of `JSON.parse(qrCodeData)` (`.error`
when it throws), `mgrJoin` is `NebulaManager.joinNetwork(...)`, `saveCreds`
is `TokenStorage.setCredentials(...)`, and `mgrNodeIP` is
`NebulaManager.getStatus().nodeIP` read on the success path.  The body runs
inside `try`; `joinNetwork` itself is the `catch` wrapper of lines 131–134,
which maps a thrown error to `{success:false, error: e.message || 'Unknown
error'}`. -/

def joinNetworkBody (now : Int) (parseResult : Except String NebulaAuthQRData)
    (mgrJoin : Except String Unit) (saveCreds : Except String Unit)
    (mgrNodeIP : Option String) : Except String PairingResult :=
  match parseResult with
  | .error e => .error e
  | .ok qrData =>
    if qrData.version ≠ "1.0" then
      .ok { success := false, error := some "Unsupported QR code version" }
    else if now - qrData.timestamp > 5 * 60 * 1000 then
      .ok { success := false, error := some "QR code has expired" }
    else
      match deriveCredentialsFromQR now qrData with
      | none => .ok { success := false, error := some "Failed to derive credentials" }
      | some credentials =>
        match mgrJoin with
        | .error e => .error e
        | .ok _ =>
          match saveCreds with
          | .error e => .error e
          | .ok _ =>
            .ok { success := true, credentials := some credentials
                  nebulaConfig := some { nodeIP := mgrNodeIP
                                         lighthouseIP := qrData.lighthouseIP } }

def joinNetwork (now : Int) (parseResult : Except String NebulaAuthQRData)
    (mgrJoin : Except String Unit) (saveCreds : Except String Unit)
    (mgrNodeIP : Option String) : PairingResult :=
  match joinNetworkBody now parseResult mgrJoin saveCreds mgrNodeIP with
  | .ok r => r
  | .error e => { success := false, error := some (if e = "" then "Unknown error" else e) }

/-! ## `NebulaManager` (NebulaManager.ts)

`requestNodeIP` (lines 261–266) picks an address from the platform alone;
`setupAsCA` (lines 69–106) hard-codes the hub address `10.42.0.1` into the
configuration it builds (line 78).  Certificate/key generation is random,
so the generated strings are parameters here. -/

inductive PlatformOS
  | ios
  | android
  | web
  | windows
  | macos
deriving DecidableEq

structure NebulaConfig where
  nodeId : String
  nodeIP : String
  caCert : String
  nodeCert : String
  nodeKey : String
  lighthouses : List String
  isLighthouse : Bool
  port : Option Int
deriving DecidableEq

/-- Embedding of `NebulaManager.requestNodeIP` (lines 261–266):
`Platform.OS === 'ios' ? '2' : Platform.OS === 'android' ? '3' : '4'`,
prefixed with `10.42.0.`.  The `caCert` argument and the set of existing
allocations are not consulted. -/
def requestNodeIP (os : PlatformOS) : String :=
  "10.42.0." ++ (if os = PlatformOS.ios then "2" else if os = PlatformOS.android then "3" else "4")

/-- The configuration built by `NebulaManager.setupAsCA` (lines 82–91):
`nodeIP` is the constant `'10.42.0.1'` of line 78. -/
def setupAsCAConfig (nodeId caCert nodeCert nodeKey : String) : NebulaConfig :=
  { nodeId := nodeId
    nodeIP := "10.42.0.1"
    caCert := caCert
    nodeCert := nodeCert
    nodeKey := nodeKey
    isLighthouse := true
    port := some 4242
    lighthouses := [] }

/-! ## `LocalRelay` (LocalRelay.ts)

Peer registry, routing and the lifecycle of the staleness-sweep interval. -/

structure ConnectedPeer where
  id : String
  nodeIP : String
  platform : String
  connectedAt : Int
  lastSeen : Int
deriving DecidableEq

structure RelayMessage where
  type : String
  data : String
  from? : Option String
  to? : Option String
  timestamp : Int
deriving DecidableEq

inductive RelayEvent
  | peerConnected (p : ConnectedPeer)
  | peerDisconnected (p : ConnectedPeer)
deriving DecidableEq

/-- The `peers` JS `Map`, as an insertion-ordered association list. -/
abbrev PeerMap := List (String × ConnectedPeer)

def findPeer (ip : String) : PeerMap → Option ConnectedPeer
  | [] => none
  | (k, v) :: rest => if k = ip then some v else findPeer ip rest

/-! ### `routeMessage` (lines 573–597)

Runs only on the hub (`isServer`).  The encryption collaborator is a
parameter applied to `message.data` (lines 577–579); it does not influence
the set of recipients.  The function returns the list of peers the message
is handed to by `sendToPeer`. -/

def routeMessage (isServer : Bool) (encrypt : String → String) (peers : PeerMap)
    (message : RelayMessage) : List ConnectedPeer :=
  if !isServer then []
  else
    let message := { message with data := encrypt message.data }
    match message.to? with
    | some target =>
      match findPeer target peers with
      | some peer => [peer]
      | none => []
    | none => (peers.map Prod.snd).filter (fun peer => some peer.id ≠ message.from?)

/-! ### `updatePeerList` (lines 655–684)

First pass: every `peerIP` of the Nebula status is inserted fresh (emitting
`peerConnected`) or has its `lastSeen` refreshed.  Second pass: every map
entry whose `nodeIP` is no longer in the Nebula list is removed (emitting
`peerDisconnected`). -/

/-- One step of the first loop of `updatePeerList`, for one `peerIP`. -/
def observePeerStep (now : Int) (peerIP : String) (m : PeerMap) : PeerMap × List RelayEvent :=
  match findPeer peerIP m with
  | none =>
    let peer : ConnectedPeer :=
      { id := peerIP, nodeIP := peerIP, platform := "unknown"
        connectedAt := now, lastSeen := now }
    (m ++ [(peerIP, peer)], [RelayEvent.peerConnected peer])
  | some _ =>
    (m.map (fun e => if e.1 = peerIP then (e.1, { e.2 with lastSeen := now }) else e), [])

/-- The first loop of `updatePeerList` over all `nebulaPeers`. -/
def observePeers (now : Int) : List String → PeerMap → PeerMap × List RelayEvent
  | [], m => (m, [])
  | ip :: rest, m =>
    let (m1, e1) := observePeerStep now ip m
    let (m2, e2) := observePeers now rest m1
    (m2, e1 ++ e2)

/-- The second loop of `updatePeerList`: drop peers absent from the Nebula
list, emitting `peerDisconnected` for each. -/
def removeVanishedPeers (nebulaPeers : List String) (m : PeerMap) : PeerMap × List RelayEvent :=
  (m.filter (fun e => nebulaPeers.contains e.2.nodeIP),
   (m.filter (fun e => ¬ nebulaPeers.contains e.2.nodeIP)).map
     (fun e => RelayEvent.peerDisconnected e.2))

/-- Embedding of `LocalRelay.updatePeerList` (lines 655–684): the first
loop, then the removal loop over the updated map; events in program order. -/
def updatePeerList (now : Int) (nebulaPeers : List String) (m : PeerMap) :
    PeerMap × List RelayEvent :=
  ((removeVanishedPeers nebulaPeers (observePeers now nebulaPeers m).1).1,
   (observePeers now nebulaPeers m).2 ++
     (removeVanishedPeers nebulaPeers (observePeers now nebulaPeers m).1).2)

/-! ### Relay lifecycle (lines 435–469, 474–509, 640–653)

`startPeerMonitoring` registers a `setInterval(cleanupStalePeers, 30000)`
whose handle is discarded; nothing in `LocalRelay.ts` calls
`clearInterval`.  `stop` (lines 455–469) nulls the server and client
handles, clears `isRunning` and the peer map — and touches nothing else. -/

structure RelayState where
  isServer : Bool
  isRunning : Bool
  peers : PeerMap
  serverUp : Bool
  clientUp : Bool
  sweepIntervalActive : Bool
deriving DecidableEq

/-- The state of `LocalRelayImpl` at construction (lines 421–430). -/
def relayInit : RelayState :=
  { isServer := false, isRunning := false, peers := []
    serverUp := false, clientUp := false, sweepIntervalActive := false }

/-- Embedding of `startAsServer` (lines 474–490) including the
`setInterval` registered by `startPeerMonitoring` (lines 649–652). -/
def startAsServer (s : RelayState) : RelayState :=
  { s with isServer := true, serverUp := true, sweepIntervalActive := true }

/-- Embedding of `startAsClient` (lines 495–509). -/
def startAsClient (s : RelayState) : RelayState :=
  { s with isServer := false, clientUp := true }

/-- Embedding of `LocalRelay.start` (lines 435–450). -/
def relayStart (isLighthouse : Bool) (s : RelayState) : RelayState :=
  let s1 := if isLighthouse then startAsServer s else startAsClient s
  { s1 with isRunning := true }

/-- Embedding of `LocalRelay.stop` (lines 455–469): the sweep interval is not cleared —
the source never stores the `setInterval` handle nor calls `clearInterval`. -/
def relayStop (s : RelayState) : RelayState :=
  { s with serverUp := false, clientUp := false, isRunning := false, peers := [] }

/-- Embedding of `cleanupStalePeers` (lines 686–697): remove peers not seen for more
than 60 s, emitting `peerDisconnected` for each. -/
def cleanupStalePeers (now : Int) (m : PeerMap) : PeerMap × List RelayEvent :=
  (m.filter (fun e => ¬ (now - e.2.lastSeen > 60000)),
   (m.filter (fun e => now - e.2.lastSeen > 60000)).map
     (fun e => RelayEvent.peerDisconnected e.2))

/-! ## `NebulaSocket` (NebulaSocket.ts)

### `updateStatus` (lines 261–266)

```ts
private updateStatus(status) {
    if (this.currentStatus !== status) {
        this.currentStatus = status;
        this.statusListeners.forEach(listener => listener(status));
    }
}
```
The function returns the new state together with the list of status values
handed to the listeners by this call. -/

inductive ConnStatus
  | disconnected
  | connecting
  | connected
  | error
deriving DecidableEq

structure SocketState where
  currentStatus : ConnStatus
deriving DecidableEq

def updateStatus (status : ConnStatus) (st : SocketState) : SocketState × List ConnStatus :=
  if st.currentStatus ≠ status then ({ currentStatus := status }, [status])
  else (st, [])

/-- A sequence of `updateStatus` calls, collecting every value notified to
the listeners, in order. -/
def runStatusUpdates (st : SocketState) : List ConnStatus → SocketState × List ConnStatus
  | [] => (st, [])
  | u :: us =>
    let (st1, e1) := updateStatus u st
    let (st2, es) := runStatusUpdates st1 us
    (st2, e1 ++ es)

/-! ### The pending-correlation bookkeeping of `rpc` (lines 137–172) and
`emitWithAck` (lines 179–200)

Each call registers a response handler on the relay's `message` event and
arms a `setTimeout`; the promise settles at most once.  The state of one
call is `{listenerRegistered, timerActive, settled}`.

* `rpcTimeoutFire` is the timeout callback of lines 150–152: it rejects
  the promise — and does **not** call `LocalRelay.off`.
* `rpcHandleMessage` is `responseHandler` (lines 155–167): on a matching
  `rpc-response` it clears the timeout, unregisters itself, and resolves
  or rejects.
* `ackTimeoutFire` / `ackHandleMessage` mirror lines 185–187 and 189–195
  of `emitWithAck` (15 s timeout; the handler only resolves). -/

inductive RpcOutcome
  | resolved (result : String)
  | rejectedError (e : String)
  | rejectedTimeout
deriving DecidableEq

/-- Promise settlement: only the first resolution/rejection counts. -/
def settle (s : Option RpcOutcome) (o : RpcOutcome) : Option RpcOutcome :=
  match s with
  | none => some o
  | some x => some x

structure PendingCall where
  listenerRegistered : Bool
  timerActive : Bool
  settled : Option RpcOutcome
deriving DecidableEq

/-- State right after the `Promise` executor of `rpc` ran (lines 149–170):
timeout armed, handler registered on `LocalRelay`. -/
def rpcStart : PendingCall :=
  { listenerRegistered := true, timerActive := true, settled := none }

/-- The `rpc` timeout callback (lines 150–152): rejects with
`'RPC call timed out'`; the response handler is left registered. -/
def rpcTimeoutFire (s : PendingCall) : PendingCall :=
  if s.timerActive then
    { s with timerActive := false, settled := settle s.settled RpcOutcome.rejectedTimeout }
  else s

/-- The `rpc` `responseHandler` (lines 155–167) receiving a relay
`message` event; `isMatch` is `message.type === 'rpc-response' &&
message.data.id === rpcMessage.id`. -/
def rpcHandleMessage (isMatch : Bool) (ok : Bool) (result errMsg : String)
    (s : PendingCall) : PendingCall :=
  if s.listenerRegistered ∧ isMatch then
    { listenerRegistered := false
      timerActive := false
      settled := settle s.settled
        (if ok then RpcOutcome.resolved result
         else RpcOutcome.rejectedError (if errMsg = "" then "RPC call failed" else errMsg)) }
  else s

/-- State right after the `Promise` executor of `emitWithAck` ran
(lines 184–198). -/
def ackStart : PendingCall :=
  { listenerRegistered := true, timerActive := true, settled := none }

/-- The `emitWithAck` timeout callback (lines 185–187): rejects; the ack
handler is left registered. -/
def ackTimeoutFire (s : PendingCall) : PendingCall :=
  if s.timerActive then
    { s with timerActive := false, settled := settle s.settled RpcOutcome.rejectedTimeout }
  else s

/-- The `ackHandler` (lines 189–195); `isMatch` is
`message.type === event + '-ack' && message.data._ackId === ackId`. -/
def ackHandleMessage (isMatch : Bool) (result : String) (s : PendingCall) : PendingCall :=
  if s.listenerRegistered ∧ isMatch then
    { listenerRegistered := false
      timerActive := false
      settled := settle s.settled (RpcOutcome.resolved result) }
  else s

/-! ## Concrete sample data used in witnesses and counterexamples -/

/-- Sample v1.0 QR payload with a chosen timestamp and challenge signature. -/
def sampleQR (ts : Int) (sig : String) : NebulaAuthQRData :=
  { version := "1.0"
    networkId := "happy-1"
    caCert := "NEBULA_CA_CERT_PLACEHOLDER"
    lighthouseIP := "10.42.0.1"
    lighthousePort := 4242
    authChallenge := "aabbccdd"
    authSignature := sig
    authPublicKey := "eeff0011"
    timestamp := ts }

/-- Sample peer record with `lastSeen = 1`. -/
def demoPeer : ConnectedPeer :=
  { id := "10.42.0.2", nodeIP := "10.42.0.2", platform := "unknown"
    connectedAt := 1, lastSeen := 1 }

/-- Sample peer map holding just `demoPeer`. -/
def demoPeerMap : PeerMap := [("10.42.0.2", demoPeer)]

/-! ## Helper lemmas -/

theorem toInt32_lb (x : Int) : -2147483648 ≤ toInt32 x := by
  have h := Int.emod_nonneg (x + 2147483648) (by norm_num : (4294967296 : Int) ≠ 0)
  unfold toInt32
  omega

theorem toInt32_ub (x : Int) : toInt32 x < 2147483648 := by
  have h := Int.emod_lt_of_pos (x + 2147483648) (by norm_num : (0 : Int) < 4294967296)
  unfold toInt32
  omega

theorem hashStep_lb (h : Int) (b : Nat) : -2147483648 ≤ hashStep h b :=
  toInt32_lb _

theorem hashStep_ub (h : Int) (b : Nat) : hashStep h b < 2147483648 :=
  toInt32_ub _

theorem foldl_hashStep_bounds (l : List Nat) (h : Int)
    (hlb : -2147483648 ≤ h) (hub : h < 2147483648) :
    -2147483648 ≤ l.foldl hashStep h ∧ l.foldl hashStep h < 2147483648 := by
  induction l generalizing h with
  | nil => exact ⟨hlb, hub⟩
  | cons b rest ih => exact ih (hashStep h b) (hashStep_lb h b) (hashStep_ub h b)

theorem natToHexCore_length_le (k : Nat) :
    ∀ (fuel n : Nat) (acc : List Char), 0 < k → n < 16 ^ k →
      (natToHexCore fuel n acc).length ≤ k + acc.length := by
  induction k with
  | zero => intro fuel n acc hk; omega
  | succ k ih =>
    intro fuel n acc _ hn
    match fuel with
    | 0 => simp only [natToHexCore]; omega
    | fuel + 1 =>
      by_cases hz : n / 16 = 0
      · simp [natToHexCore, hz]
        omega
      · have hk : 0 < k := by
          by_contra hk0
          have : k = 0 := by omega
          subst this
          have : n < 16 := by simpa using hn
          omega
        have hn' : n / 16 < 16 ^ k := by
          have : n < 16 ^ k * 16 := by
            calc n < 16 ^ (k + 1) := hn
            _ = 16 ^ k * 16 := by ring
          omega
        have := ih fuel (n / 16) (hexDigitChar (n % 16) :: acc) hk hn'
        simp only [natToHexCore, hz, if_false]
        simp at this ⊢
        omega

theorem natToHex_length_le_eight (n : Nat) (hn : n ≤ 2147483648) :
    (natToHex n).length ≤ 8 := by
  have h := natToHexCore_length_le 8 (n + 1) n [] (by omega) (by norm_num; omega)
  simpa [natToHex] using h

theorem padStartZero_length (l : List Char) (h : l.length ≤ 8) :
    (padStartZero 8 l).length = 8 := by
  simp [padStartZero]
  omega

/-- Auxiliary: the secret string is built from exactly 64 characters. -/
theorem deriveSharedSecret_data_length (challenge signature publicKey : List Nat) :
    (deriveSharedSecret challenge signature publicKey).data.length = 64 := by
  have hb := foldl_hashStep_bounds (challenge ++ signature ++ publicKey) 0
    (by norm_num) (by norm_num)
  have habs : ((challenge ++ signature ++ publicKey).foldl hashStep 0).natAbs ≤ 2147483648 := by
    omega
  have hlen : (padStartZero 8
      (natToHex ((challenge ++ signature ++ publicKey).foldl hashStep 0).natAbs)).length = 8 :=
    padStartZero_length _ (natToHex_length_le_eight _ habs)
  show (List.take 64 (List.flatten (List.replicate 8 (padStartZero 8
      (natToHex ((challenge ++ signature ++ publicKey).foldl hashStep 0).natAbs))))).length = 64
  generalize hq : padStartZero 8
      (natToHex ((challenge ++ signature ++ publicKey).foldl hashStep 0).natAbs) = p
  rw [hq] at hlen
  rw [List.length_take, List.length_flatten]
  simp [hlen]

/-! ### Peer-registry lemmas -/

theorem findPeer_append_singleton (ip q : String) (v : ConnectedPeer) (m : PeerMap)
    (h : q ≠ ip) : findPeer ip (m ++ [(q, v)]) = findPeer ip m := by
  induction m with
  | nil => simp [findPeer, h]
  | cons e rest ih =>
    by_cases he : e.1 = ip
    · simp [findPeer, he]
    · simp [findPeer, he, ih]

theorem findPeer_update_ne (now : Int) (ip q : String) (m : PeerMap) (h : q ≠ ip) :
    findPeer ip (m.map (fun e => if e.1 = q then (e.1, { e.2 with lastSeen := now }) else e)) =
      findPeer ip m := by
  induction m with
  | nil => simp [findPeer]
  | cons e rest ih =>
    obtain ⟨k, v⟩ := e
    simp only [List.map_cons]
    by_cases heq : k = q
    · subst heq
      rw [if_pos rfl]
      have hkip : ¬ k = ip := h
      simp [findPeer, hkip, ih]
    · rw [if_neg (by simpa using heq)]
      by_cases hip : k = ip
      · simp [findPeer, hip]
      · simp [findPeer, hip, ih]

theorem findPeer_update_eq (now : Int) (ip : String) (m : PeerMap) (rec : ConnectedPeer)
    (h : findPeer ip m = some rec) :
    findPeer ip (m.map (fun e => if e.1 = ip then (e.1, { e.2 with lastSeen := now }) else e)) =
      some { rec with lastSeen := now } := by
  induction m with
  | nil => simp [findPeer] at h
  | cons e rest ih =>
    obtain ⟨k, v⟩ := e
    simp only [List.map_cons]
    by_cases hip : k = ip
    · subst hip
      rw [if_pos rfl]
      have hv : v = rec := by simpa [findPeer] using h
      subst hv
      simp [findPeer]
    · rw [if_neg (by simpa using hip)]
      have h' : findPeer ip rest = some rec := by simpa [findPeer, hip] using h
      simp [findPeer, hip, ih h']

theorem findPeer_filter (f : String × ConnectedPeer → Bool) (ip : String) (m : PeerMap)
    (r : ConnectedPeer) (h : findPeer ip m = some r) (hf : f (ip, r) = true) :
    findPeer ip (m.filter f) = some r := by
  induction m with
  | nil => simp [findPeer] at h
  | cons e rest ih =>
    obtain ⟨k, v⟩ := e
    by_cases hip : k = ip
    · subst hip
      have hv : v = r := by simpa [findPeer] using h
      subst hv
      rw [List.filter_cons]
      rw [if_pos (by simpa using hf)]
      simp [findPeer]
    · have h' : findPeer ip rest = some r := by simpa [findPeer, hip] using h
      rw [List.filter_cons]
      by_cases hfe : f (k, v) = true
      · rw [if_pos (by simpa using hfe)]
        simp [findPeer, hip, ih h']
      · rw [if_neg (by simpa using hfe)]
        exact ih h'

/-- Presence of a peer whose `lastSeen` is already `now` is untouched by
the first loop of `updatePeerList`. -/
theorem observePeers_findPeer_fixed (now : Int) (ip : String) :
    ∀ (nps : List String) (m : PeerMap) (rec : ConnectedPeer),
      findPeer ip m = some rec → rec.lastSeen = now →
      findPeer ip (observePeers now nps m).1 = some rec := by
  intro nps
  induction nps with
  | nil => intro m rec h _; simpa [observePeers] using h
  | cons q rest ih =>
    intro m rec h hseen
    simp only [observePeers]
    by_cases hq : q = ip
    · subst hq
      rw [show observePeerStep now q m
          = (m.map (fun e => if e.1 = q then (e.1, { e.2 with lastSeen := now }) else e), [])
          from by simp [observePeerStep, h]]
      have hrec : ({ rec with lastSeen := now } : ConnectedPeer) = rec := by
        cases rec; simp_all
      have := findPeer_update_eq now q m rec h
      rw [hrec] at this
      exact ih _ rec this hseen
    · cases hfq : findPeer q m with
      | none =>
        rw [show observePeerStep now q m = (m ++ [(q,
            { id := q, nodeIP := q, platform := "unknown", connectedAt := now, lastSeen := now })],
            [RelayEvent.peerConnected
              { id := q, nodeIP := q, platform := "unknown", connectedAt := now, lastSeen := now }])
            from by simp [observePeerStep, hfq]]
        exact ih _ rec (by rw [findPeer_append_singleton ip q _ m hq]; exact h) hseen
      | some w =>
        rw [show observePeerStep now q m
            = (m.map (fun e => if e.1 = q then (e.1, { e.2 with lastSeen := now }) else e), [])
            from by simp [observePeerStep, hfq]]
        exact ih _ rec (by rw [findPeer_update_ne now ip q m hq]; exact h) hseen

/-- After the first loop of `updatePeerList`, a peer that was already in
the map and is named in the Nebula peer list carries `lastSeen = now`. -/
theorem observePeers_findPeer_of_mem (now : Int) (ip : String) :
    ∀ (nps : List String) (m : PeerMap) (rec : ConnectedPeer),
      findPeer ip m = some rec → ip ∈ nps →
      findPeer ip (observePeers now nps m).1 = some { rec with lastSeen := now } := by
  intro nps
  induction nps with
  | nil => intro m rec _ hmem; simp at hmem
  | cons q rest ih =>
    intro m rec h hmem
    simp only [observePeers]
    by_cases hq : q = ip
    · subst hq
      rw [show observePeerStep now q m
          = (m.map (fun e => if e.1 = q then (e.1, { e.2 with lastSeen := now }) else e), [])
          from by simp [observePeerStep, h]]
      exact observePeers_findPeer_fixed now q rest _ _ (findPeer_update_eq now q m rec h) rfl
    · have hmem' : ip ∈ rest := by
        cases hmem with
        | head => exact absurd rfl hq
        | tail _ h => exact h
      cases hfq : findPeer q m with
      | none =>
        rw [show observePeerStep now q m = (m ++ [(q,
            { id := q, nodeIP := q, platform := "unknown", connectedAt := now, lastSeen := now })],
            [RelayEvent.peerConnected
              { id := q, nodeIP := q, platform := "unknown", connectedAt := now, lastSeen := now }])
            from by simp [observePeerStep, hfq]]
        exact ih _ rec (by rw [findPeer_append_singleton ip q _ m hq]; exact h) hmem'
      | some w =>
        rw [show observePeerStep now q m
            = (m.map (fun e => if e.1 = q then (e.1, { e.2 with lastSeen := now }) else e), [])
            from by simp [observePeerStep, hfq]]
        exact ih _ rec (by rw [findPeer_update_ne now ip q m hq]; exact h) hmem'

/-- The first loop of `updatePeerList` emits no `peerConnected` for a peer
id that is already present in the map. -/
theorem observePeers_no_reconnect (now : Int) (ip : String) :
    ∀ (nps : List String) (m : PeerMap) (rec : ConnectedPeer),
      findPeer ip m = some rec →
      ∀ p, RelayEvent.peerConnected p ∈ (observePeers now nps m).2 → p.id ≠ ip := by
  intro nps
  induction nps with
  | nil => intro m rec _ p hp; simp [observePeers] at hp
  | cons q rest ih =>
    intro m rec h p hp
    simp only [observePeers] at hp
    by_cases hq : q = ip
    · subst hq
      rw [show observePeerStep now q m
          = (m.map (fun e => if e.1 = q then (e.1, { e.2 with lastSeen := now }) else e), [])
          from by simp [observePeerStep, h]] at hp
      simp only [List.nil_append] at hp
      exact ih _ _ (findPeer_update_eq now q m rec h) p hp
    · cases hfq : findPeer q m with
      | none =>
        rw [show observePeerStep now q m = (m ++ [(q,
            { id := q, nodeIP := q, platform := "unknown", connectedAt := now, lastSeen := now })],
            [RelayEvent.peerConnected
              { id := q, nodeIP := q, platform := "unknown", connectedAt := now, lastSeen := now }])
            from by simp [observePeerStep, hfq]] at hp
        simp only [List.cons_append, List.nil_append, List.mem_cons] at hp
        cases hp with
        | inl hp =>
          have hpq : p = (⟨q, q, "unknown", now, now⟩ : ConnectedPeer) := by
            injection hp
          rw [hpq]
          exact hq
        | inr hp =>
          exact ih _ rec (by rw [findPeer_append_singleton ip q _ m hq]; exact h) p hp
      | some w =>
        rw [show observePeerStep now q m
            = (m.map (fun e => if e.1 = q then (e.1, { e.2 with lastSeen := now }) else e), [])
            from by simp [observePeerStep, hfq]] at hp
        simp only [List.nil_append] at hp
        exact ih _ rec (by rw [findPeer_update_ne now ip q m hq]; exact h) p hp

/-- The second loop of `updatePeerList` only emits `peerDisconnected`. -/
theorem removeVanishedPeers_no_connect (nps : List String) (m : PeerMap) (p : ConnectedPeer) :
    RelayEvent.peerConnected p ∉ (removeVanishedPeers nps m).2 := by
  intro hp
  simp only [removeVanishedPeers, List.mem_map] at hp
  obtain ⟨e, _, he⟩ := hp
  exact RelayEvent.noConfusion he

/-! ### Status-update lemmas -/

theorem runStatusUpdates_chain (us : List ConnStatus) :
    ∀ (st : SocketState),
      ((runStatusUpdates st us).2).Chain' (· ≠ ·) ∧
      ∀ x, ((runStatusUpdates st us).2).head? = some x → x ≠ st.currentStatus := by
  induction us with
  | nil => intro st; simp [runStatusUpdates]
  | cons u rest ih =>
    intro st
    by_cases h : st.currentStatus = u
    · have hupd : updateStatus u st = (st, []) := by simp [updateStatus, h]
      simp only [runStatusUpdates, hupd, List.nil_append]
      exact ih st
    · have hupd : updateStatus u st = ({ currentStatus := u }, [u]) := by
        simp [updateStatus, h]
      simp only [runStatusUpdates, hupd, List.cons_append, List.nil_append]
      refine ⟨?_, ?_⟩
      · rw [List.chain'_cons']
        refine ⟨?_, (ih ⟨u⟩).1⟩
        intro y hy
        exact fun hxy => (ih ⟨u⟩).2 y hy (by simpa using hxy.symm)
      · intro x hx
        simp only [List.head?_cons, Option.some.injEq] at hx
        subst hx
        exact fun hx => h hx.symm

/-! ### Possible results of the `try` body of `joinNetwork` -/

theorem joinNetworkBody_ok_cases (now : Int) (parseResult : Except String NebulaAuthQRData)
    (mgrJoin saveCreds : Except String Unit) (mgrNodeIP : Option String) (r : PairingResult)
    (h : joinNetworkBody now parseResult mgrJoin saveCreds mgrNodeIP = Except.ok r) :
    r.success = true ∨ (r.success = false ∧ ∃ e, r.error = some e ∧ e ≠ "") := by
  cases parseResult with
  | error e => simp [joinNetworkBody] at h
  | ok qr =>
    simp only [joinNetworkBody] at h
    by_cases hv : qr.version ≠ "1.0"
    · rw [if_pos hv] at h
      injection h with h
      subst h
      exact Or.inr ⟨rfl, "Unsupported QR code version", rfl, by decide⟩
    · rw [if_neg hv] at h
      by_cases hage : now - qr.timestamp > 5 * 60 * 1000
      · rw [if_pos hage] at h
        injection h with h
        subst h
        exact Or.inr ⟨rfl, "QR code has expired", rfl, by decide⟩
      · rw [if_neg hage] at h
        simp only [deriveCredentialsFromQR] at h
        cases mgrJoin with
        | error e => exact absurd h (by simp)
        | ok _ =>
          cases saveCreds with
          | error e => exact absurd h (by simp)
          | ok _ =>
            injection h with h
            subst h
            exact Or.inl rfl

/-! ## Claim theorems -/

/-- C8.  The per-device credential derivation `NebulaAuth.deriveSharedSecret`
is deterministic — equal `{challenge, signature, publicKey}` inputs give
equal outputs — and its output is exactly 64 hex characters long for all
inputs, including empty ones. -/
theorem deriveSharedSecret_deterministic_and_fixed_length
    (challenge signature publicKey : List Nat) :
    (deriveSharedSecret challenge signature publicKey).length = 64 ∧
    ∀ c' s' p', c' = challenge → s' = signature → p' = publicKey →
      deriveSharedSecret c' s' p' = deriveSharedSecret challenge signature publicKey := by
  refine ⟨?_, ?_⟩
  · exact deriveSharedSecret_data_length challenge signature publicKey
  · intro c' s' p' hc hs hp
    rw [hc, hs, hp]

/-- Witness for C8 at the empty inputs and at a concrete byte triple. -/
theorem deriveSharedSecret_deterministic_and_fixed_length_witness :
    (deriveSharedSecret [] [] []).length = 64 ∧
    deriveSharedSecret [170, 187] [0] [204] = deriveSharedSecret [170, 187] [0] [204] :=
  ⟨(deriveSharedSecret_deterministic_and_fixed_length [] [] []).1,
   (deriveSharedSecret_deterministic_and_fixed_length [170, 187] [0] [204]).2
     [170, 187] [0] [204] rfl rfl rfl⟩

/-- C4.  Every v1.0 pairing token whose `timestamp` is more than 5 minutes
(300 000 ms) before the consumption time is rejected by
`NebulaAuth.joinNetwork` with the expired-token error, regardless of what
the external collaborators would have done. -/
theorem joinNetwork_expired_token_rejected
    (now : Int) (qr : NebulaAuthQRData) (mgrJoin saveCreds : Except String Unit)
    (mgrNodeIP : Option String)
    (hv : qr.version = "1.0") (hage : now - qr.timestamp > 5 * 60 * 1000) :
    joinNetwork now (Except.ok qr) mgrJoin saveCreds mgrNodeIP =
      { success := false, credentials := none, nebulaConfig := none,
        error := some "QR code has expired" } := by
  simp only [joinNetwork, joinNetworkBody]
  rw [if_neg (by simp [hv]), if_pos hage]

/-- Witness for C4: a token stamped at 0 consumed at 301 000 ms. -/
theorem joinNetwork_expired_token_rejected_witness :
    (sampleQR 0 "bb").version = "1.0" ∧
    (301000 : Int) - (sampleQR 0 "bb").timestamp > 5 * 60 * 1000 ∧
    joinNetwork 301000 (Except.ok (sampleQR 0 "bb")) (Except.ok ()) (Except.ok ()) none =
      { success := false, credentials := none, nebulaConfig := none,
        error := some "QR code has expired" } :=
  ⟨rfl, by norm_num [sampleQR],
   joinNetwork_expired_token_rejected 301000 (sampleQR 0 "bb") (Except.ok ()) (Except.ok ())
     none rfl (by norm_num [sampleQR])⟩

/-- C9.  `NebulaAuth.joinNetwork` is total at its public interface: for
every parse outcome and every outcome of the external calls it returns a
`PairingResult` (the `catch` of lines 131–134 normalises any thrown error),
and on every failure path `success = false` with a non-empty error string. -/
theorem joinNetwork_total_with_nonempty_error
    (now : Int) (parseResult : Except String NebulaAuthQRData)
    (mgrJoin saveCreds : Except String Unit) (mgrNodeIP : Option String) :
    (joinNetwork now parseResult mgrJoin saveCreds mgrNodeIP).success = true ∨
    ((joinNetwork now parseResult mgrJoin saveCreds mgrNodeIP).success = false ∧
      ∃ e, (joinNetwork now parseResult mgrJoin saveCreds mgrNodeIP).error = some e ∧ e ≠ "") := by
  unfold joinNetwork
  cases hb : joinNetworkBody now parseResult mgrJoin saveCreds mgrNodeIP with
  | ok r =>
    simpa using joinNetworkBody_ok_cases now parseResult mgrJoin saveCreds mgrNodeIP r hb
  | error e =>
    right
    refine ⟨rfl, if e = "" then "Unknown error" else e, rfl, ?_⟩
    by_cases he : e = ""
    · simp [he]
    · simp [he]

/-- C1.  No signature verification happens in `NebulaAuth.joinNetwork`:
a fresh v1.0 token is accepted (`success = true`, no error) whatever byte
string stands in its `authSignature` field — in particular for the
1-byte string `"00"`, which is not a valid signature of the challenge
under any signature scheme.  The source derives credentials directly from
the raw bytes (`deriveCredentialsFromQR`, lines 255–277) and has no
`InvalidSignatureError` path. -/
theorem joinNetwork_accepts_invalid_signature :
    (∀ sig : String,
      (joinNetwork 60000 (Except.ok (sampleQR 0 sig)) (Except.ok ()) (Except.ok ())
        (some "10.42.0.4")).success = true) ∧
    (joinNetwork 60000 (Except.ok (sampleQR 0 "00")) (Except.ok ()) (Except.ok ())
      (some "10.42.0.4")).error = none := by
  constructor
  · intro sig
    simp only [joinNetwork, joinNetworkBody, deriveCredentialsFromQR, sampleQR]
    norm_num
  · rfl

/-- C3.  IP allocation: the hub's own setup (`setupAsCA`, line 78) always
uses the reserved address `10.42.0.1`, but `requestNodeIP` (lines 261–266)
picks the address from the platform alone and never consults existing
allocations — with `existingAllocations = ["10.42.0.1", "10.42.0.2"]`
(hub plus one iOS device already joined) a second iOS device is handed
`10.42.0.2`, an address already allocated. -/
theorem requestNodeIP_ignores_existing_allocations :
    (∀ nodeId caCert nodeCert nodeKey : String,
      (setupAsCAConfig nodeId caCert nodeCert nodeKey).nodeIP = "10.42.0.1") ∧
    requestNodeIP PlatformOS.ios = "10.42.0.2" ∧
    requestNodeIP PlatformOS.ios ∈ ["10.42.0.1", "10.42.0.2"] :=
  ⟨fun _ _ _ _ => rfl, rfl, by decide⟩

/-- C5.  `LocalRelay.stop` (lines 455–469) does not cancel the 30-second
staleness-sweep interval registered by `startPeerMonitoring` (lines
649–652): the `setInterval` handle is discarded and `clearInterval` is
never called, so after start-as-lighthouse followed by `stop()` the sweep
timer is still active even though the relay is no longer running. -/
theorem relayStop_does_not_cancel_sweep_interval :
    (relayStart true relayInit).sweepIntervalActive = true ∧
    (relayStop (relayStart true relayInit)).sweepIntervalActive = true ∧
    (relayStop (relayStart true relayInit)).isRunning = false :=
  ⟨rfl, rfl, rfl⟩

/-- C2.  The pending-correlation bookkeeping of `NebulaSocket.rpc` and
`emitWithAck`: the timeout callbacks (lines 150–152 and 185–187) reject
the promise but never call `LocalRelay.off`, so after the timeout fires
the response handler is still registered; only a matching response
(resolve or reject, lines 155–167 and 189–195) releases it. -/
theorem rpcTimeout_leaves_handler_registered :
    (rpcTimeoutFire rpcStart).listenerRegistered = true ∧
    (rpcTimeoutFire rpcStart).settled = some RpcOutcome.rejectedTimeout ∧
    (ackTimeoutFire ackStart).listenerRegistered = true ∧
    (rpcHandleMessage true true "result" "" rpcStart).listenerRegistered = false ∧
    (rpcHandleMessage true false "" "boom" rpcStart).listenerRegistered = false ∧
    (ackHandleMessage true "ok" ackStart).listenerRegistered = false := by
  decide

/-- C6.  On the hub, a broadcast (`to` unset, `from = P`) is routed by
`LocalRelay.routeMessage` (lines 573–597) to exactly the known peers whose
id differs from `P`, and never back to `P`. -/
theorem routeMessage_broadcast_excludes_sender
    (encrypt : String → String) (peers : PeerMap) (message : RelayMessage) (P : String)
    (hto : message.to? = none) (hfrom : message.from? = some P) :
    (∀ q ∈ routeMessage true encrypt peers message, q.id ≠ P) ∧
    (∀ q ∈ peers.map Prod.snd, q.id ≠ P → q ∈ routeMessage true encrypt peers message) := by
  constructor
  · intro q hq
    simp only [routeMessage, Bool.not_true, Bool.false_eq_true, if_false, hto, hfrom,
      List.mem_filter, decide_eq_true_eq, ne_eq, Option.some.injEq] at hq
    exact hq.2
  · intro q hq hne
    simp only [routeMessage, Bool.not_true, Bool.false_eq_true, if_false, hto, hfrom,
      List.mem_filter, decide_eq_true_eq, ne_eq, Option.some.injEq]
    exact ⟨hq, hne⟩

/-- Witness for C6: a two-peer map, broadcast from `10.42.0.2`. -/
theorem routeMessage_broadcast_excludes_sender_witness :
    ({ type := "chat", data := "hi", from? := some "10.42.0.2", to? := none,
       timestamp := 7 } : RelayMessage).to? = none ∧
    (∀ q ∈ routeMessage true id demoPeerMap
        { type := "chat", data := "hi", from? := some "10.42.0.2", to? := none, timestamp := 7 },
      q.id ≠ "10.42.0.2") ∧
    (∀ q ∈ demoPeerMap.map Prod.snd, q.id ≠ "10.42.0.2" →
      q ∈ routeMessage true id demoPeerMap
        { type := "chat", data := "hi", from? := some "10.42.0.2", to? := none, timestamp := 7 }) :=
  ⟨rfl,
   (routeMessage_broadcast_excludes_sender id demoPeerMap
     { type := "chat", data := "hi", from? := some "10.42.0.2", to? := none, timestamp := 7 }
     "10.42.0.2" rfl rfl).1,
   (routeMessage_broadcast_excludes_sender id demoPeerMap
     { type := "chat", data := "hi", from? := some "10.42.0.2", to? := none, timestamp := 7 }
     "10.42.0.2" rfl rfl).2⟩

/-- C7.  In `LocalRelay.updatePeerList` (lines 655–684), a peer already in
the registry that is observed again does not re-emit `peerConnected`; its
`lastSeen` is refreshed to `now` and the record survives the removal pass. -/
theorem updatePeerList_no_reemit_refreshes_lastSeen
    (now : Int) (nps : List String) (m : PeerMap) (ip : String) (rec : ConnectedPeer)
    (hfound : findPeer ip m = some rec) (hip : rec.nodeIP = ip) (hmem : ip ∈ nps) :
    (∀ p, RelayEvent.peerConnected p ∈ (updatePeerList now nps m).2 → p.id ≠ ip) ∧
    findPeer ip (updatePeerList now nps m).1 = some { rec with lastSeen := now } := by
  constructor
  · intro p hp
    simp only [updatePeerList, List.mem_append] at hp
    cases hp with
    | inl hp => exact observePeers_no_reconnect now ip nps m rec hfound p hp
    | inr hp => exact absurd hp (removeVanishedPeers_no_connect nps _ p)
  · have h1 := observePeers_findPeer_of_mem now ip nps m rec hfound hmem
    show findPeer ip (removeVanishedPeers nps (observePeers now nps m).1).1 =
      some { rec with lastSeen := now }
    unfold removeVanishedPeers
    refine findPeer_filter _ ip _ _ h1 ?_
    simp only [decide_eq_true_eq]
    show nps.contains ({ rec with lastSeen := now } : ConnectedPeer).nodeIP = true
    have : ({ rec with lastSeen := now } : ConnectedPeer).nodeIP = ip := hip
    rw [this]
    simpa using hmem

/-- Witness for C7: `demoPeer` observed again at time 100. -/
theorem updatePeerList_no_reemit_refreshes_lastSeen_witness :
    findPeer "10.42.0.2" demoPeerMap = some demoPeer ∧
    ((∀ p, RelayEvent.peerConnected p ∈
        (updatePeerList 100 ["10.42.0.2"] demoPeerMap).2 → p.id ≠ "10.42.0.2") ∧
      findPeer "10.42.0.2" (updatePeerList 100 ["10.42.0.2"] demoPeerMap).1 =
        some { demoPeer with lastSeen := 100 }) :=
  ⟨rfl,
   updatePeerList_no_reemit_refreshes_lastSeen 100 ["10.42.0.2"] demoPeerMap
     "10.42.0.2" demoPeer rfl rfl (by decide)⟩

/-- C10.  `NebulaSocket.updateStatus` (lines 261–266) is idempotent with
respect to notification: a call with the current status value changes
nothing and notifies nobody, and over any call sequence the values the
listeners observe never repeat consecutively. -/
theorem updateStatus_idempotent_no_consecutive_repeat
    (st : SocketState) (s : ConnStatus) (h : s = st.currentStatus) (us : List ConnStatus) :
    updateStatus s st = (st, []) ∧
    ((runStatusUpdates st us).2).Chain' (· ≠ ·) := by
  constructor
  · subst h
    simp [updateStatus]
  · exact (runStatusUpdates_chain us st).1

/-- Witness for C10 at the initial `disconnected` state. -/
theorem updateStatus_idempotent_no_consecutive_repeat_witness :
    (ConnStatus.disconnected = (⟨ConnStatus.disconnected⟩ : SocketState).currentStatus) ∧
    (updateStatus ConnStatus.disconnected ⟨ConnStatus.disconnected⟩ =
        (⟨ConnStatus.disconnected⟩, []) ∧
      ((runStatusUpdates ⟨ConnStatus.disconnected⟩
        [ConnStatus.connecting, ConnStatus.connecting, ConnStatus.connected]).2).Chain' (· ≠ ·)) :=
  ⟨rfl,
   updateStatus_idempotent_no_consecutive_repeat ⟨ConnStatus.disconnected⟩
     ConnStatus.disconnected rfl
     [ConnStatus.connecting, ConnStatus.connecting, ConnStatus.connected]⟩

end Happy
